import Mathlib

/-!
Verification development for the dirsearch-go repository.

The definitions below are a shallow embedding of the Go sources:
  * `pkg/scanner` (file in `src/pkg/config/config.go` after the `package scanner`
    header): `Result`, `makeRequest`, `ScanURL`, `shouldIncludeResult`,
    `ExtractPaths`, `fillRateLimiter`;
  * `cmd/main.go`: job expansion in `scan`, `calculateTotalJobs`, `worker`,
    `recursiveScan`, `setupSignalHandling`, `Run`, `flushBufferedOutput`;
  * `pkg/output/output.go`: the writer variants and their `Flush`/`Close`.

Strings are modelled as Lean `String`/`List Char`; machine integers as
`Nat`/`Int` (status codes and sizes stay far below any overflow boundary,
so no modular wrap-around is modelled); Go `error` return values as
`Except String`/`Option String`; wall-clock effects (sleeps, timestamps,
tickers) are erased.  Functions whose Go recursion is not structural are
given a fuel argument that is always sufficient at the call sites
(the fuel-exhausted branch coincides with the source's behaviour there).
-/

namespace Dirsearch

/-! ## String helpers (models of Go `strings` functions) -/

/-- Model of Go `strings.Contains` on `List Char`: `pat` occurs as a
contiguous substring of `hay`.  Like Go, the empty pattern is contained in
every string. -/
def listContainsSub (pat : List Char) : List Char → Bool
  | [] => pat.isEmpty
  | c :: t => pat.isPrefixOf (c :: t) || listContainsSub pat t

/-- Model of Go `strings.Contains`. -/
def strContains (s pat : String) : Bool :=
  listContainsSub pat.data s.data

/-- Helper for `replaceAll`: structural recursion on a fuel bound that is
always at least `hay.length` at the top-level call, which is sufficient
because each step consumes at least one character of `hay`. -/
def replaceAllAux (pat rep : List Char) : Nat → List Char → List Char
  | _, [] => []
  | 0, hay => hay
  | Nat.succ fuel, c :: t =>
    if pat ≠ [] && pat.isPrefixOf (c :: t) then
      rep ++ replaceAllAux pat rep fuel ((c :: t).drop pat.length)
    else
      c :: replaceAllAux pat rep fuel t

/-- Model of Go `strings.ReplaceAll` for a non-empty pattern (the only use
in the sources replaces the literal `%EXT%`). -/
def replaceAll (s pat rep : String) : String :=
  String.mk (replaceAllAux pat.data rep.data s.data.length s.data)

/-- Model of Go `strings.HasPrefix`. -/
def strStarts (s pat : String) : Bool :=
  pat.data.isPrefixOf s.data

/-- Model of Go `strings.TrimPrefix`: removes one leading occurrence of
`pat`, if present. -/
def trimPrefixOnce (s pat : String) : String :=
  if strStarts s pat then String.mk (s.data.drop pat.data.length) else s

/-- Model of Go `strings.TrimLeft(s, "/")`: removes all leading slashes. -/
def trimLeftSlashes (s : String) : String :=
  String.mk (s.data.dropWhile (fun c => c = '/'))

/-- Model of Go `strings.TrimRight(s, "/")`: removes all trailing slashes. -/
def trimRightSlashes (s : String) : String :=
  String.mk ((s.data.reverse.dropWhile (fun c => c = '/')).reverse)

/-! ## Data model: `scanner.Response`-level data and `scanner.Result` -/

/-- The observable part of an `*http.Response` consumed by `makeRequest`:
status code, headers and the fully drained body. -/
structure Response where
  statusCode : Nat
  headers : List (String × String) := []
  body : String := ""
deriving Repr, DecidableEq

/-- Embedding of `scanner.Result` (config.go, `type Result struct`).  The
`Timestamp` field is wall-clock time and is not modelled.  Zero values of
the Go struct are the field defaults. -/
structure Result where
  url : String := ""
  statusCode : Nat := 0
  size : Int := 0
  headers : List (String × String) := []
  body : String := ""
  error : String := ""
  depth : Nat := 0
  method : String := ""
deriving Repr, DecidableEq

/-! ## `makeRequest` (config.go lines 443-520)

A transport is modelled as a function from the attempt index to either a
transport error (the Go `s.client.Do` error text) or a `Response`. -/

/-- The retry loop of `makeRequest` (`for i := 0; i <= s.config.RetryCount`):
given the attempt transport and the number of attempts still allowed,
returns `(attempts executed, value of the outer resp variable, error of the
last executed attempt)`.  On the first success the loop `break`s; on a
failure with attempts remaining it sleeps `RetryDelay` (erased here) and
retries. -/
def runAttempts (transport : Nat → Except String Response) :
    Nat → Nat → Nat × Option Response × Option String
  | _, 0 => (0, none, none)
  | i, Nat.succ remaining =>
    match transport i with
    | Except.ok resp => (1, some resp, none)
    | Except.error e =>
      match remaining with
      | 0 => (1, none, some e)
      | Nat.succ m =>
        let a := runAttempts transport (i + 1) (Nat.succ m)
        (a.1 + 1, a.2.1, a.2.2)

/-- The `Result` built by `makeRequest` when the loop exited with a non-nil
response: `Headers`/`Body` are retained only in verbose mode
(config.go lines 500-517). -/
def successResult (verbose : Bool) (method url : String) (depth : Nat)
    (resp : Response) : Result :=
  { url := url
    statusCode := resp.statusCode
    size := (resp.body.data.length : Int)
    method := method
    depth := depth
    headers := if verbose then resp.headers else []
    body := if verbose then resp.body else "" }

/-- Embedding of `makeRequest` (config.go lines 443-520).  `reqErr` models a
failure of `http.NewRequestWithContext` (the only path on which a Go error
is propagated to the caller); `transport` models `s.client.Do` per attempt.
Returns the `(*Result, error)` pair as an `Except`, together with the
number of attempts executed.

In the Go source the loop body declares `req, err := ...`, which shadows
the outer `err` declared before the loop; the assignment
`resp, err = s.client.Do(req)` therefore writes the inner variable and the
outer `err` remains nil forever.  The post-loop `if err != nil` branch that
would surface the last attempt's error text is consequently dead code; it
is kept below (`outerErr`) to mirror the source's structure. -/
def makeRequest (verbose : Bool) (retryCount : Nat) (reqErr : Option String)
    (transport : Nat → Except String Response) (method url : String)
    (depth : Nat) : Except String (Result × Nat) :=
  match reqErr with
  | some e => Except.error ("创建请求失败: " ++ e)
  | none =>
    let a := runAttempts transport 0 (retryCount + 1)
    let outerErr : Option String := none
    match outerErr with
    | some e =>
      Except.ok ({ url := url, method := method, error := e, depth := depth }, a.1)
    | none =>
      match a.2.1 with
      | none =>
        Except.ok ({ url := url, method := method, error := "响应为空", depth := depth }, a.1)
      | some resp =>
        Except.ok (successResult verbose method url depth resp, a.1)

/-! ## `shouldIncludeResult` (config.go lines 522-585)

The compiled regexes `s.includeRegex`/`s.excludeRegex` are `nil` exactly
when the corresponding pattern is empty (`scanner.New`); they are modelled
as `Option (String → Bool)` where the function is the `MatchString` of the
compiled pattern. -/

/-- The filter-relevant configuration: `config.FilterConfig` plus the two
compiled regexes held on the `Scanner`. -/
structure FilterCfg where
  statusCodes : List Nat := []
  excludeStatus : List Nat := []
  minSize : Int := 0
  maxSize : Int := 0
  includeRegex : Option (String → Bool) := none
  excludeRegex : Option (String → Bool) := none
  includeWords : List String := []
  excludeWords : List String := []

/-- Embedding of `shouldIncludeResult`.  Each early `return false` of the
Go function is one `if ... then false` stage, in source order:
status allow-list, status deny-list, min size, max size, include regex,
exclude regex, include keywords, exclude keywords. -/
def shouldIncludeResult (f : FilterCfg) (r : Result) : Bool :=
  if !f.statusCodes.isEmpty && !(f.statusCodes.contains r.statusCode) then false
  else if f.excludeStatus.contains r.statusCode then false
  else if f.minSize > 0 && r.size < f.minSize then false
  else if f.maxSize > 0 && r.size > f.maxSize then false
  else if (match f.includeRegex with
           | some m => !(m r.body)
           | none => false) then false
  else if (match f.excludeRegex with
           | some m => m r.body
           | none => false) then false
  else if !f.includeWords.isEmpty
        && !(f.includeWords.any (fun w => strContains r.body w)) then false
  else if f.excludeWords.any (fun w => strContains r.body w) then false
  else true

/-- The spec's seven filter rules (§4.3), written as one predicate in the
spec's own order: (1) non-empty allow-list must contain the code, (2) code
not in deny-list, (3) size bounds apply only when positive, (4) include
regex must match, (5) exclude regex must not match, (6) at least one
include keyword when configured, (7) no exclude keyword occurs. -/
def shouldIncludeSpec (f : FilterCfg) (r : Result) : Prop :=
  (f.statusCodes ≠ [] → r.statusCode ∈ f.statusCodes) ∧
  r.statusCode ∉ f.excludeStatus ∧
  (0 < f.minSize → f.minSize ≤ r.size) ∧
  (0 < f.maxSize → r.size ≤ f.maxSize) ∧
  (∀ m, f.includeRegex = some m → m r.body = true) ∧
  (∀ m, f.excludeRegex = some m → m r.body = false) ∧
  (f.includeWords ≠ [] → ∃ w ∈ f.includeWords, strContains r.body w = true) ∧
  (∀ w ∈ f.excludeWords, strContains r.body w = false)

/-! ## `ExtractPaths` (config.go lines 587-617)

The Go function scans the body with the regular expression
`href=["']([^"']+)["']` and keeps, for each captured value that does not
start with `http`/`mailto:`/`#`/`javascript:`, the `Path` component of
`net/url.Parse`, with one leading `/` trimmed. -/

/-- One character is an attribute quote of the pattern (`["']`). -/
def isQuote (c : Char) : Bool := c = '"' || c = '\''

/-- Tries to match the regular expression `href=["']([^"']+)["']` at the
head of the character list.  On success returns the captured group and the
characters after the whole match.  The character class `[^"']` excludes
both quote characters, and the closing quote need not equal the opening
one, exactly as in the Go pattern. -/
def matchHrefAt : List Char → Option (List Char × List Char)
  | 'h' :: 'r' :: 'e' :: 'f' :: '=' :: q :: rest =>
    if isQuote q then
      match rest.dropWhile (fun c => !isQuote c) with
      | [] => none
      | _ :: after =>
        match rest.takeWhile (fun c => !isQuote c) with
        | [] => none
        | cap => some (cap, after)
    else none
  | _ => none

/-- All captures of `pathRegex.FindAllStringSubmatch(body, -1)`: leftmost
matches, scanned left to right without overlap.  `fuel` bounds the scan and
is instantiated with the input length, which is sufficient since every step
consumes at least one character. -/
def hrefMatchesAux : Nat → List Char → List String
  | 0, _ => []
  | Nat.succ _, [] => []
  | Nat.succ fuel, c :: rest =>
    match matchHrefAt (c :: rest) with
    | some (cap, after) => String.mk cap :: hrefMatchesAux fuel after
    | none => hrefMatchesAux fuel rest

/-- All captured `href` attribute values of a body. -/
def hrefMatches (l : List Char) : List String :=
  hrefMatchesAux l.length l

/-! ### A model of `net/url.Parse`

Only what `ExtractPaths` consumes is modelled: the success/failure of the
parse and the decoded `Path` field.  Covered: control-byte rejection,
fragment and query stripping, scheme detection (`getScheme`), the opaque
form (non-`/` rest after a scheme, where `Path` stays empty), the
colon-in-first-segment error, authority (`//host`) skipping, and
percent-decoding of the path with malformed-escape errors.  Host syntax
validation inside the authority is not modelled (treated as accepting). -/

/-- The parsed fields of `url.URL` read by `ExtractPaths`. -/
structure GoURL where
  scheme : String := ""
  path : String := ""
deriving Repr, DecidableEq

/-- Characters allowed inside a scheme after the first. -/
def isSchemeChar (c : Char) : Bool :=
  c.isAlpha || c.isDigit || c = '+' || c = '-' || c = '.'

/-- Model of `getScheme`: splits `scheme:rest`.  `none` is the
"missing protocol scheme" error (a `:` as first character); otherwise
returns the (possibly empty) scheme and the remainder. -/
def schemeSplit (l : List Char) : Option (List Char × List Char) :=
  match l with
  | [] => some ([], [])
  | c :: _ =>
    if c.isAlpha then
      match l.dropWhile isSchemeChar with
      | ':' :: after => some (l.takeWhile isSchemeChar, after)
      | _ => some ([], l)
    else if c = ':' then none
    else some ([], l)

/-- Hexadecimal digit value, as in `net/url.unhex` (code points 48-57 are
the digits, 97-102 and 65-70 the lower- and upper-case letters `a`-`f`). -/
def unhex (c : Char) : Option Nat :=
  let n := c.toNat
  if 48 ≤ n ∧ n ≤ 57 then some (n - 48)
  else if 97 ≤ n ∧ n ≤ 102 then some (n - 87)
  else if 65 ≤ n ∧ n ≤ 70 then some (n - 55)
  else none

/-- Percent-decoding of a path, as in `url.setPath`/`url.unescape`:
`%XY` with two hex digits decodes to one byte, anything else after `%`
is an escape error (`none`). -/
def unescapePath : List Char → Option (List Char)
  | [] => some []
  | '%' :: rest =>
    match rest with
    | a :: b :: rest2 =>
      match unhex a, unhex b with
      | some x, some y =>
        (unescapePath rest2).map (fun t => Char.ofNat (16 * x + y) :: t)
      | _, _ => none
    | _ => none
  | c :: rest => (unescapePath rest).map (fun t => c :: t)

/-- A control byte as in `stringContainsCTLByte`: below space, or DEL. -/
def isCTL (c : Char) : Bool := c < ' ' || c = '\x7f'

/-- Model of `net/url.Parse` (see section comment above). -/
def urlParse (s : String) : Option GoURL :=
  if s.data.any isCTL then none
  else
    let beforeFrag := s.data.takeWhile (fun c => c ≠ '#')
    match schemeSplit beforeFrag with
    | none => none
    | some (schemeRaw, rest0) =>
      let scheme := String.mk (schemeRaw.map Char.toLower)
      let rest := rest0.takeWhile (fun c => c ≠ '?')
      if rest.head? ≠ some '/' then
        if scheme ≠ "" then
          some { scheme := scheme, path := "" }
        else if (rest.takeWhile (fun c => c ≠ '/')).contains ':' then
          none
        else
          (unescapePath rest).map (fun p => { scheme := scheme, path := String.mk p })
      else
        let rest2 :=
          if (scheme ≠ "" || !(['/', '/', '/'].isPrefixOf rest))
              && ['/', '/'].isPrefixOf rest then
            (rest.drop 2).dropWhile (fun c => c ≠ '/')
          else rest
        (unescapePath rest2).map (fun p => { scheme := scheme, path := String.mk p })

/-- Embedding of `ExtractPaths` (config.go lines 587-617): empty body short
circuit, then the append loop over the regex captures, filtering external /
`mailto:` / fragment / `javascript:` references and keeping non-empty
parsed paths with one leading slash trimmed. -/
def ExtractPaths (r : Result) : List String :=
  if r.body = "" then []
  else
    (hrefMatches r.body.data).foldr
      (fun p acc =>
        if !(strStarts p "http") && !(strStarts p "mailto:")
            && !(strStarts p "#") && !(strStarts p "javascript:") then
          match urlParse p with
          | some u => if u.path ≠ "" then trimPrefixOnce u.path "/" :: acc else acc
          | none => acc
        else acc)
      []

/-- The spec's description of `extractPaths` (§4.5 and the §8 example, as
restated by the claim): exactly the `href` attribute values that do not
start with `http`, `mailto:`, `#` or `javascript:`, parse as a URL with a
non-empty path, each normalized by stripping one leading `/`. -/
def extractPathsSpec (r : Result) : List String :=
  (hrefMatches r.body.data).filterMap
    (fun p =>
      if strStarts p "http" || strStarts p "mailto:"
          || strStarts p "#" || strStarts p "javascript:" then none
      else
        match urlParse p with
        | some u => if u.path ≠ "" then some (trimPrefixOnce u.path "/") else none
        | none => none)

/-! ## Rate limiter (config.go lines 382-402) and `ScanURL` (lines 404-440)

`scanner.rateLimiter` is a buffered channel of capacity
`RateLimit.RequestsPerSecond`, created only when rate limiting is enabled.
The bucket state is modelled by the number of buffered tokens. -/

/-- One tick of `fillRateLimiter`: `select { case ch <- token: default: }`
deposits one token if the buffer is below capacity and silently drops the
token otherwise (never blocking the refiller). -/
def refillStep (cap n : Nat) : Nat :=
  if n < cap then n + 1 else n

/-- An event touching the token bucket: a refill tick, or a worker's
receive in `ScanURL` (which fires only when a token is present; on an empty
bucket the worker blocks and no event happens). -/
inductive RLOp where
  | refill
  | acquire
deriving Repr, DecidableEq

/-- The bucket state after a sequence of events. -/
def rlRun (cap : Nat) : Nat → List RLOp → Nat
  | n, [] => n
  | n, RLOp.refill :: ops => rlRun cap (refillStep cap n) ops
  | n, RLOp.acquire :: ops => rlRun cap (n - 1) ops

/-- The environment of one `ScanURL` call: the per-attempt transport and
the `http.NewRequestWithContext` outcome for every method/URL pair. -/
structure ScanEnv where
  transport : String → String → Nat → Except String Response
  reqErr : String → String → Option String := fun _ _ => none

/-- The method loop of `ScanURL` (config.go lines 423-437): for each
configured HTTP method run `makeRequest`; a propagated request-creation
error is logged and the next method is tried; the first result passing
`shouldIncludeResult` is returned.  Also accumulates the number of
transport attempts issued. -/
def tryMethods (f : FilterCfg) (verbose : Bool) (retryCount : Nat)
    (env : ScanEnv) (fullURL : String) (depth : Nat) :
    List String → Option Result × Nat
  | [] => (none, 0)
  | m :: rest =>
    match makeRequest verbose retryCount (env.reqErr m fullURL)
        (env.transport m fullURL) m fullURL depth with
    | Except.error _ => tryMethods f verbose retryCount env fullURL depth rest
    | Except.ok (r, n) =>
      if shouldIncludeResult f r then (some r, n)
      else
        let p := tryMethods f verbose retryCount env fullURL depth rest
        (p.1, n + p.2)

/-- Embedding of `ScanURL` (config.go lines 404-440).  `rateLimitEnabled`
mirrors `s.rateLimiter != nil`; `cancelFirst` models the `select` between
the token channel and `ctx.Done()` resolving in favour of the cancellation
signal.  Returns the `(*Result, error)` outcome together with the number of
transport attempts issued (0 when the call is cancelled or skipped). -/
def ScanURL (f : FilterCfg) (verbose : Bool) (retryCount : Nat)
    (methods : List String) (rateLimitEnabled cancelFirst : Bool)
    (env : ScanEnv) (targetURL path : String) (depth : Nat) :
    Except String (Option Result) × Nat :=
  if rateLimitEnabled && cancelFirst then (Except.error "context canceled", 0)
  else if strContains path "%FUZZ%" then (Except.ok none, 0)
  else
    let fullURL := trimRightSlashes targetURL ++ "/" ++ trimLeftSlashes path
    let p := tryMethods f verbose retryCount env fullURL depth methods
    (Except.ok p.1, p.2)

/-! ## Wordlist expansion and `calculateTotalJobs` (cmd/main.go) -/

/-- The expansion of one wordlist line in `scan` (main.go lines 280-301):
a line containing `%EXT%` becomes one job per configured extension — with
the extension used bare when the placeholder is already preceded by a
literal dot, and prefixed by a dot otherwise — and any other line becomes
exactly one job. -/
def expandWord (extensions : List String) (word : String) : List String :=
  if strContains word "%EXT%" then
    extensions.map (fun ext =>
      let extToUse :=
        if strContains word ".%EXT%" then ext
        else if strStarts ext "." then ext
        else "." ++ ext
      replaceAll word "%EXT%" extToUse)
  else [word]

/-- All jobs the dispatcher feeds into the job channel for a wordlist
(the uncancelled run of the reading loop in `scan`). -/
def emitJobs (extensions : List String) (lines : List String) : List String :=
  lines.foldr (fun w acc => expandWord extensions w ++ acc) []

/-- Embedding of `calculateTotalJobs` (main.go lines 418-438): one count
per line without the placeholder, `len(extensions)` per line with it. -/
def calculateTotalJobs (extensions : List String) (lines : List String) : Nat :=
  lines.foldr
    (fun w acc => (if strContains w "%EXT%" then extensions.length else 1) + acc)
    0

/-! ## `recursiveScan` (main.go lines 342-372) and the worker (lines 318-340)

`scan` abstracts the composition
`a.scanner.ScanURL(ctx, target, path, depth)` followed by the worker's
error/nil handling: `none` stands for both an error return (logged and
skipped) and a nil result.  The fuel argument makes the depth-bounded
recursion structural; the top-level call passes `maxDepth + 2 - depth`,
which never runs out before the `depth > MaxDepth` guard stops the
recursion, so the fuel-exhausted branch agrees with the source. -/

def recursiveScanAux (maxDepth : Nat) (scan : String → Nat → Option Result)
    (extract : Result → List String) : Nat → Result → Nat → List Result
  | 0, _, _ => []
  | Nat.succ fuel, parent, depth =>
    if maxDepth < depth then []
    else
      (extract parent).foldr
        (fun p acc =>
          match scan p depth with
          | none => acc
          | some r =>
            r :: ((if 200 ≤ r.statusCode ∧ r.statusCode < 400 then
                     recursiveScanAux maxDepth scan extract fuel r (depth + 1)
                   else []) ++ acc))
        []

/-- Embedding of `recursiveScan`: all results it hands to the output
channel, in emission order.  A hop extracts the parent's paths, scans each
at the current depth, and recurses at `depth + 1` for 2xx/3xx children. -/
def recursiveScan (maxDepth : Nat) (scan : String → Nat → Option Result)
    (extract : Result → List String) (parent : Result) (depth : Nat) :
    List Result :=
  recursiveScanAux maxDepth scan extract (maxDepth + 2 - depth) parent depth

/-- One worker iteration on a wordlist job (main.go lines 321-338): scan at
depth 0; on a non-nil result emit it and, only when the `Recursive` flag is
set and the status is 2xx/3xx, enter `recursiveScan(result, 1)`
synchronously. -/
def workerProcess (recursive : Bool) (maxDepth : Nat)
    (scan : String → Nat → Option Result) (extract : Result → List String)
    (word : String) : List Result :=
  match scan word 0 with
  | none => []
  | some r =>
    r :: (if recursive ∧ 200 ≤ r.statusCode ∧ r.statusCode < 400 then
            recursiveScan maxDepth scan extract r 1
          else [])

/-! ## Output writers and the cancellation flush trace
(pkg/output/output.go, main.go lines 142-206, 394-416)

`NewApp` composes a console writer with at most one buffered file writer
behind a `MultiWriter`; nested `MultiWriter`s never occur, so the writer
tree is one level deep. -/

/-- The non-composite writer variants of pkg/output. -/
inductive BaseWriter where
  | console (verbose : Bool)
  | jsonW (filename : String)
  | csvW (filename : String)
  | bufJSON (filename : String)
  | bufCSV (filename : String)
deriving Repr, DecidableEq

/-- A writer as held in `App.writer`: a single writer or a `MultiWriter`
over base writers. -/
inductive GoWriter where
  | base (w : BaseWriter)
  | multi (ws : List BaseWriter)
deriving Repr, DecidableEq

/-- Whether the dynamic type assertion `writer.(output.BufferedWriter)`
succeeds for a base writer: exactly the buffered variants carry `Flush`. -/
def baseIsBuffered : BaseWriter → Bool
  | BaseWriter.bufJSON _ => true
  | BaseWriter.bufCSV _ => true
  | _ => false

/-- The output files committed by one `Flush` call on a base writer. -/
def baseFlushEvents : BaseWriter → List String
  | BaseWriter.bufJSON f => [f]
  | BaseWriter.bufCSV f => [f]
  | _ => []

/-- The flushes performed by one `Close` call on a base writer:
`BufferedJSONWriter.Close` and `BufferedCSVWriter.Close` delegate to
`Flush` (output.go lines 223-226 and 344-347); the other variants close
without flushing a buffer. -/
def baseCloseFlush : BaseWriter → List String
  | BaseWriter.bufJSON f => [f]
  | BaseWriter.bufCSV f => [f]
  | _ => []

/-- Embedding of `App.flushBufferedOutput` (main.go lines 394-411):
a `MultiWriter` flushes each buffered child (`MultiWriter.Flush`);
otherwise a writer is flushed exactly when it is a `BufferedWriter`. -/
def flushBufferedOutput : GoWriter → List String
  | GoWriter.multi ws =>
    ws.foldr (fun w acc => (if baseIsBuffered w then baseFlushEvents w else []) ++ acc) []
  | GoWriter.base w => if baseIsBuffered w then baseFlushEvents w else []

/-- The flushes performed by `writer.Close()` (`MultiWriter.Close` closes
every child). -/
def closeFlushEvents : GoWriter → List String
  | GoWriter.multi ws => ws.foldr (fun w acc => baseCloseFlush w ++ acc) []
  | GoWriter.base w => baseCloseFlush w

/-- The sequence of buffered-writer `Flush` invocations on the cancellation
path, in order: the signal handler flushes (main.go line 200) and cancels
the context; `scan` returns; `Run` flushes again (line 175) and finally
calls `writer.Close()` (line 180), which flushes the buffered writers once
more.  Each list element is the output file of one `Flush` invocation. -/
def cancellationFlushTrace (w : GoWriter) : List String :=
  flushBufferedOutput w ++ flushBufferedOutput w ++ closeFlushEvents w

/-- The document `BufferedJSONWriter.Flush` writes (output.go lines
180-221): the JSON array opener, the encoded results separated by `,\n`
(each indented by two spaces and terminated by the encoder's newline), and
the closer.  `enc` abstracts `json.Encoder` on one result. -/
def renderJSONDoc (enc : Result → String) (rs : List Result) : String :=
  "[\n" ++ String.intercalate ",\n" (rs.map (fun r => "  " ++ enc r ++ "\n")) ++ "\n]"

/-- The effect of one `BufferedJSONWriter.Flush` on the output file: with
an empty buffer it returns without touching the file; otherwise it
recreates the file (`os.Create` truncates) and writes the complete
document built from the retained buffer (`w.results` is never cleared). -/
def bufJSONFlushFile (enc : Result → String) (results : List Result)
    (fileContents : Option String) : Option String :=
  if results.isEmpty then fileContents else some (renderJSONDoc enc results)

/-- The output file after `n` successive `Flush` invocations. -/
def applyFlushes (enc : Result → String) (results : List Result) :
    Nat → Option String → Option String
  | 0, fs => fs
  | Nat.succ n, fs => applyFlushes enc results n (bufJSONFlushFile enc results fs)

/-! ### Concrete instances used by witnesses and counterexamples -/

/-- A transport on which every attempt fails (connection refused). -/
def c1transport : Nat → Except String Response :=
  fun _ => Except.error "connection refused"

/-- The `App.writer` built by `NewApp` for a run with a JSON output file
configured: console writer plus buffered JSON writer behind a
`MultiWriter`. -/
def appCancelWriter : GoWriter :=
  GoWriter.multi [BaseWriter.console false, BaseWriter.bufJSON "results.json"]

/-- The filter configuration of the `c9_empty_body_amended` witness: one
non-empty exclude keyword, an exclude regex not matching the empty string,
and an include regex not matching the empty string. -/
def c9cfg : FilterCfg :=
  { excludeWords := ["x"],
    excludeRegex := some (fun s => decide (s = "bad")),
    includeRegex := some (fun s => decide (s = "hello")) }

/-- The transport of the `c7_retry_success` witness: the first two attempts
fail, the third succeeds. -/
def c7transport : Nat → Except String Response :=
  fun i => if i < 2 then Except.error "econn" else Except.ok ⟨200, [], "ok"⟩

/-- The scanner of the `c3_recursion_depth_bounded` witness: every path
responds 200 and the result is stamped with the scan depth. -/
def c3scan : String → Nat → Option Result :=
  fun _ d => some { statusCode := 200, depth := d }

/-- The extractor of the `c3_recursion_depth_bounded` witness: every page
links one child path. -/
def c3extract : Result → List String := fun _ => ["child"]

/-! ## Theorems -/

/-- Unfolding of `calculateTotalJobs` on a cons cell. -/
theorem calculateTotalJobs_cons (extensions : List String) (w : String)
    (ls : List String) :
    calculateTotalJobs extensions (w :: ls) =
      (if strContains w "%EXT%" then extensions.length else 1)
        + calculateTotalJobs extensions ls := rfl

/-- Unfolding of `emitJobs` on a cons cell. -/
theorem emitJobs_cons (extensions : List String) (w : String)
    (ls : List String) :
    emitJobs extensions (w :: ls) =
      expandWord extensions w ++ emitJobs extensions ls := rfl

/-- A line's expansion always has the predicted number of jobs. -/
theorem expandWord_length (extensions : List String) (w : String) :
    (expandWord extensions w).length =
      if strContains w "%EXT%" then extensions.length else 1 := by
  unfold expandWord
  cases h : strContains w "%EXT%" <;> simp [h]

/-- Claim C2: `calculateTotalJobs` counts exactly the jobs the dispatcher
emits (one per plain line, one per extension for a `%EXT%` line), and the
expansion never duplicates a literal dot: `file.%EXT%` with extension `php`
yields `file.php` (never `file..php`), while `file%EXT%` also yields
`file.php` with the dot inserted; the §8 end-to-end wordlist
`["a", "file.%EXT%"]` with extensions `["php","txt"]` gives the three jobs
`a`, `file.php`, `file.txt`. -/
theorem c2_total_jobs_match_emitted :
    (∀ (extensions lines : List String),
        calculateTotalJobs extensions lines = (emitJobs extensions lines).length) ∧
    emitJobs ["php", "txt"] ["a", "file.%EXT%"] = ["a", "file.php", "file.txt"] ∧
    expandWord ["php"] "file.%EXT%" = ["file.php"] ∧
    expandWord ["php"] "file%EXT%" = ["file.php"] ∧
    "file..php" ∉ emitJobs ["php", "txt"] ["a", "file.%EXT%"] := by
  refine ⟨?_, by decide, by decide, by decide, by decide⟩
  intro extensions lines
  induction lines with
  | nil => rfl
  | cons w ls ih =>
    rw [calculateTotalJobs_cons, emitJobs_cons, List.length_append, ih,
      expandWord_length]

/-- Claim C1 (code bug witness): with `RetryCount = 0` and a transport
whose single attempt fails with `connection refused`, `makeRequest` indeed
returns a `Result` value (no propagated Go error) with `StatusCode` 0 and a
non-empty `Error` — but the `Error` text is the constant nil-response
message `响应为空`, not the last attempt's error text, because the loop's
`req, err :=` shadows the outer `err` and leaves the error-surfacing branch
dead. -/
theorem c1_dead_error_branch :
    makeRequest false 0 none c1transport "GET" "http://test.local/a" 0 =
      Except.ok ({ url := "http://test.local/a", method := "GET",
                   error := "响应为空", depth := 0 }, 1) ∧
    ({ url := "http://test.local/a", method := "GET",
       error := "响应为空", depth := 0 } : Result).error ≠ "connection refused" ∧
    ({ url := "http://test.local/a", method := "GET",
       error := "响应为空", depth := 0 } : Result).statusCode = 0 := by
  refine ⟨rfl, by decide, rfl⟩

/-- Claim C5 counterexample: on the cancellation path the buffered JSON
writer's `Flush` is invoked three times (signal handler, `Run`'s
`flushBufferedOutput`, and `writer.Close()`), so it is not performed
exactly once as claimed. -/
theorem c5_flush_counterexample :
    (cancellationFlushTrace appCancelWriter).count "results.json" = 3 ∧
    (3 : Nat) ≠ 1 := by
  refine ⟨by decide, by decide⟩

/-- Claim C5 amended: on the cancellation path each buffered writer's
`Flush` is performed three times, hence at least once; because
`BufferedJSONWriter.Flush` recreates the file and rewrites it from the
retained buffer on every call, the output file nevertheless ends as the
single complete document of all buffered results. -/
theorem c5_flush_amended (enc : Result → String) (results : List Result)
    (h : results ≠ []) :
    (cancellationFlushTrace appCancelWriter).count "results.json" = 3 ∧
    1 ≤ (cancellationFlushTrace appCancelWriter).count "results.json" ∧
    applyFlushes enc results
        ((cancellationFlushTrace appCancelWriter).count "results.json") none =
      some (renderJSONDoc enc results) := by
  have hne : results.isEmpty = false := by
    cases results with
    | nil => exact absurd rfl h
    | cons a l => rfl
  refine ⟨by decide, by decide, ?_⟩
  show applyFlushes enc results 3 none = some (renderJSONDoc enc results)
  simp [applyFlushes, bufJSONFlushFile, hne]

/-- Witness for `c5_flush_amended` at a one-element buffer. -/
theorem c5_flush_amended_witness :
    (cancellationFlushTrace appCancelWriter).count "results.json" = 3 ∧
    1 ≤ (cancellationFlushTrace appCancelWriter).count "results.json" ∧
    applyFlushes (fun _ => "enc") [{}]
        ((cancellationFlushTrace appCancelWriter).count "results.json") none =
      some (renderJSONDoc (fun _ => "enc") [{}]) :=
  c5_flush_amended (fun _ => "enc") [{}] (by decide)

/-- Claim C9 counterexample: the content filters do not uniformly treat an
uncaptured (empty) body as non-matching.  With the exclude-keyword `""`
(Go `strings.Contains(body, "")` is true) an empty-body result IS excluded,
and with the include-keyword `""` the empty body IS treated as matching. -/
theorem c9_counterexample :
    shouldIncludeResult { excludeWords := [""] } { statusCode := 200, body := "" } = false ∧
    shouldIncludeResult { includeWords := [""] } { statusCode := 200, body := "" } = true := by
  refine ⟨rfl, rfl⟩

/-- One stage of the early-return chain of `shouldIncludeResult`. -/
theorem if_false_else_eq_true {c : Prop} [Decidable c] {rest : Bool} :
    (if c then false else rest) = true ↔ ¬ c ∧ rest = true := by
  split_ifs with h <;> simp [h]

/-- The code's `shouldIncludeResult` agrees with the spec's rule list,
rule by rule and in the stated order. -/
theorem shouldInclude_iff (f : FilterCfg) (r : Result) :
    shouldIncludeResult f r = true ↔ shouldIncludeSpec f r := by
  unfold shouldIncludeResult shouldIncludeSpec
  simp only [if_false_else_eq_true, and_true, Bool.not_eq_true]
  refine and_congr ?_ (and_congr ?_ (and_congr ?_ (and_congr ?_ (and_congr ?_
    (and_congr ?_ (and_congr ?_ ?_))))))
  · simp
  · simp
  · simp
  · simp
  · cases f.includeRegex <;> simp
  · cases f.excludeRegex <;> simp
  · simp
  · simp

/-- Claim C4: `shouldIncludeResult` implements exactly the spec's seven
rules in their stated order (the early-return chain is equivalent to their
conjunction), `ExcludeStatus=[404]` rejects a 404 result, and a 200 result
passes when no other rule is configured. -/
theorem c4_filter_rules :
    (∀ (f : FilterCfg) (r : Result),
        shouldIncludeResult f r = true ↔ shouldIncludeSpec f r) ∧
    shouldIncludeResult { excludeStatus := [404] } { statusCode := 404 } = false ∧
    shouldIncludeResult {} { statusCode := 200 } = true :=
  ⟨shouldInclude_iff, rfl, rfl⟩

/-- Containment of a pattern in the empty string holds exactly for the
empty pattern (Go `strings.Contains("", w)`). -/
theorem strContains_empty_body (w : String) : strContains "" w = true ↔ w = "" := by
  cases w with
  | mk l =>
    cases l with
    | nil => exact ⟨fun _ => rfl, fun _ => rfl⟩
    | cons c cs =>
      constructor
      · intro h
        exact Bool.noConfusion h
      · intro h
        exact absurd (congrArg String.data h) (by simp)

/-- Claim C9 amended: for an empty (uncaptured) body the content filters
degrade as described provided the matchers themselves do not match the
empty string — an exclude keyword must be non-empty and an exclude regex
must not match `""`.  Under those provisos the exclude checks never fire;
a configured include regex that does not match `""`, or a non-empty list
of non-empty include keywords, treats the empty body as not matching and
excludes the result; and with no include rules configured an empty-body
result passing the status and size rules is included. -/
theorem c9_empty_body_amended (f : FilterCfg) (r : Result)
    (hbody : r.body = "")
    (hexw : ∀ w ∈ f.excludeWords, w ≠ "")
    (hexr : ∀ m, f.excludeRegex = some m → m "" = false) :
    (∀ w ∈ f.excludeWords, strContains r.body w = false) ∧
    (∀ m, f.excludeRegex = some m → m r.body = false) ∧
    ((f.statusCodes ≠ [] → r.statusCode ∈ f.statusCodes) →
      r.statusCode ∉ f.excludeStatus →
      (0 < f.minSize → f.minSize ≤ r.size) →
      (0 < f.maxSize → r.size ≤ f.maxSize) →
      f.includeRegex = none → f.includeWords = [] →
      shouldIncludeResult f r = true) ∧
    (∀ m, f.includeRegex = some m → m "" = false →
      shouldIncludeResult f r = false) ∧
    (f.includeWords ≠ [] → (∀ w ∈ f.includeWords, w ≠ "") →
      shouldIncludeResult f r = false) := by
  have hw : ∀ w ∈ f.excludeWords, strContains r.body w = false := by
    intro w hwmem
    rw [hbody]
    cases h : strContains "" w with
    | false => rfl
    | true => exact absurd ((strContains_empty_body w).mp h) (hexw w hwmem)
  have hx : ∀ m, f.excludeRegex = some m → m r.body = false := by
    intro m hm
    rw [hbody]
    exact hexr m hm
  refine ⟨hw, hx, ?_, ?_, ?_⟩
  · intro h1 h2 h3 h4 hinone hiw
    refine (shouldInclude_iff f r).mpr ⟨h1, h2, h3, h4, ?_, hx, ?_, hw⟩
    · intro m hm
      rw [hinone] at hm
      exact Option.noConfusion hm
    · intro hne
      exact absurd hiw hne
  · intro m hm hmempty
    cases h : shouldIncludeResult f r with
    | false => rfl
    | true =>
      have spec := (shouldInclude_iff f r).mp h
      have := spec.2.2.2.2.1 m hm
      rw [hbody] at this
      rw [hmempty] at this
      exact Bool.noConfusion this
  · intro hne hall
    cases h : shouldIncludeResult f r with
    | false => rfl
    | true =>
      have spec := (shouldInclude_iff f r).mp h
      obtain ⟨w, hwmem, hwc⟩ := spec.2.2.2.2.2.2.1 hne
      rw [hbody] at hwc
      exact absurd ((strContains_empty_body w).mp hwc) (hall w hwmem)

/-- Witness for `c9_empty_body_amended`: with `c9cfg` an empty-body 200
result is excluded by the include regex (treated as non-matching), and the
exclude keyword does not match the empty body. -/
theorem c9_empty_body_amended_witness :
    shouldIncludeResult c9cfg { statusCode := 200, body := "" } = false ∧
    strContains ({ statusCode := 200, body := "" } : Result).body "x" = false := by
  have h := c9_empty_body_amended c9cfg { statusCode := 200, body := "" } rfl
    (by decide)
    (fun m hm => by
      injection hm with h2
      rw [← h2]
      rfl)
  refine ⟨h.2.2.2.1 (fun s => decide (s = "hello")) rfl rfl, h.1 "x" (by decide)⟩

/-- The retry loop never executes more attempts than it is allowed. -/
theorem runAttempts_count_le (transport : Nat → Except String Response) :
    ∀ (k i : Nat), (runAttempts transport i k).1 ≤ k := by
  intro k
  induction k with
  | zero => intro i; simp [runAttempts]
  | succ n ih =>
    intro i
    unfold runAttempts
    cases ht : transport i with
    | ok resp => simp
    | error e =>
      cases n with
      | zero => simp
      | succ m =>
        have h := ih (i + 1)
        simp only [Nat.succ_eq_add_one]
        omega

/-- If the first `j` attempts fail and attempt `j` (0-based) succeeds
within the allowance, the loop stops right there with the response. -/
theorem runAttempts_success (transport : Nat → Except String Response)
    (resp : Response) :
    ∀ (j i k : Nat), j < k →
      (∀ o, o < j → ∃ e, transport (i + o) = Except.error e) →
      transport (i + j) = Except.ok resp →
      runAttempts transport i k = (j + 1, some resp, none) := by
  intro j
  induction j with
  | zero =>
    intro i k hk hfail hsucc
    cases k with
    | zero => omega
    | succ n =>
      unfold runAttempts
      rw [Nat.add_zero] at hsucc
      rw [hsucc]
  | succ jn ih =>
    intro i k hk hfail hsucc
    cases k with
    | zero => omega
    | succ n =>
      obtain ⟨e, he⟩ := hfail 0 (Nat.succ_pos jn)
      rw [Nat.add_zero] at he
      unfold runAttempts
      rw [he]
      cases n with
      | zero => omega
      | succ m =>
        have hr := ih (i + 1) (Nat.succ m) (by omega)
          (fun o ho => by
            obtain ⟨e2, he2⟩ := hfail (o + 1) (by omega)
            exact ⟨e2, by rw [show i + 1 + o = i + (o + 1) by omega]; exact he2⟩)
          (by rw [show i + 1 + jn = i + (jn + 1) by omega]; exact hsucc)
        simp [hr]

/-- Claim C7: `makeRequest` performs at most `RetryCount + 1` attempts;
when attempt `j` (0-based, within the allowance) succeeds after `j`
transport failures, exactly `j + 1` attempts are made and the returned
`Result` carries the response's status code and an empty `Error`. -/
theorem c7_retry_success (verbose : Bool) (retryCount j : Nat)
    (m u : String) (d : Nat) (transport : Nat → Except String Response)
    (resp : Response)
    (hj : j ≤ retryCount)
    (hfail : ∀ i, i < j → ∃ e, transport i = Except.error e)
    (hsucc : transport j = Except.ok resp) :
    (∀ (t : Nat → Except String Response) (r : Result) (n : Nat),
        makeRequest verbose retryCount none t m u d = Except.ok (r, n) →
        n ≤ retryCount + 1) ∧
    makeRequest verbose retryCount none transport m u d =
      Except.ok (successResult verbose m u d resp, j + 1) ∧
    (successResult verbose m u d resp).error = "" ∧
    (successResult verbose m u d resp).statusCode = resp.statusCode := by
  refine ⟨?_, ?_, rfl, rfl⟩
  · intro t r n h
    have hc := runAttempts_count_le t (retryCount + 1) 0
    simp only [makeRequest] at h
    rcases hx : (runAttempts t 0 (retryCount + 1)).2.1 with _ | resp2
    · rw [hx] at h
      simp only [Except.ok.injEq, Prod.mk.injEq] at h
      obtain ⟨h1, h2⟩ := h
      omega
    · rw [hx] at h
      simp only [Except.ok.injEq, Prod.mk.injEq] at h
      obtain ⟨h1, h2⟩ := h
      omega
  · have hr := runAttempts_success transport resp j 0 (retryCount + 1)
      (by omega) (by simpa using hfail) (by simpa using hsucc)
    unfold makeRequest
    rw [hr]

/-- Witness for `c7_retry_success` at `RetryCount = 2`: the first two
attempts fail, the third succeeds, exactly 3 attempts are made and the
result carries no error. -/
theorem c7_retry_success_witness :
    makeRequest false 2 none c7transport "GET" "http://test.local/a" 0 =
      Except.ok (successResult false "GET" "http://test.local/a" 0 ⟨200, [], "ok"⟩, 3) ∧
    (successResult false "GET" "http://test.local/a" 0 ⟨200, [], "ok"⟩).error = "" ∧
    (successResult false "GET" "http://test.local/a" 0 ⟨200, [], "ok"⟩).statusCode = 200 := by
  have h := c7_retry_success false 2 2 "GET" "http://test.local/a" 0 c7transport
    ⟨200, [], "ok"⟩ (by decide)
    (fun i hi => ⟨"econn", if_pos hi⟩)
    (by rfl)
  exact ⟨h.2.1, h.2.2.1, h.2.2.2⟩

/-- Claim C6: in non-verbose mode every `Result` built by `makeRequest`
has an empty `Body`; `ExtractPaths` of any empty-body result is empty; and
therefore `recursiveScan` on an empty-body parent discovers no child paths
at all. -/
theorem c6_nonverbose_no_recursion :
    (∀ (retryCount : Nat) (transport : Nat → Except String Response)
        (m u : String) (d : Nat) (r : Result) (n : Nat),
        makeRequest false retryCount none transport m u d = Except.ok (r, n) →
        r.body = "") ∧
    (∀ r : Result, r.body = "" → ExtractPaths r = []) ∧
    (∀ (maxDepth : Nat) (scan : String → Nat → Option Result)
        (parent : Result) (depth : Nat), parent.body = "" →
        recursiveScan maxDepth scan ExtractPaths parent depth = []) := by
  have hext : ∀ r : Result, r.body = "" → ExtractPaths r = [] := by
    intro r h
    simp [ExtractPaths, h]
  refine ⟨?_, hext, ?_⟩
  · intro retryCount transport m u d r n h
    simp only [makeRequest] at h
    rcases hx : (runAttempts transport 0 (retryCount + 1)).2.1 with _ | resp2
    · rw [hx] at h
      simp only [Except.ok.injEq, Prod.mk.injEq] at h
      obtain ⟨h1, h2⟩ := h
      rw [← h1]
    · rw [hx] at h
      simp only [Except.ok.injEq, Prod.mk.injEq] at h
      obtain ⟨h1, h2⟩ := h
      rw [← h1]
      rfl
  · intro maxDepth scan parent depth hbody
    have h0 := hext parent hbody
    unfold recursiveScan
    cases maxDepth + 2 - depth with
    | zero => rfl
    | succ n => simp [recursiveScanAux, h0]

/-- Witness for `c6_nonverbose_no_recursion` at concrete arguments. -/
theorem c6_nonverbose_no_recursion_witness :
    ExtractPaths { statusCode := 200 } = [] ∧
    recursiveScan 3 (fun _ _ => none) ExtractPaths { statusCode := 200 } 1 = [] :=
  ⟨c6_nonverbose_no_recursion.2.1 { statusCode := 200 } rfl,
   c6_nonverbose_no_recursion.2.2 3 (fun _ _ => none) { statusCode := 200 } 1 rfl⟩

/-- Every result emitted by the recursion body lies between the calling
depth and `MaxDepth`, provided the scanner stamps results with the depth it
was called at (as `ScanURL`/`makeRequest` do). -/
theorem mem_recursiveScanAux (maxDepth : Nat)
    (scan : String → Nat → Option Result) (extract : Result → List String)
    (hscan : ∀ p d r, scan p d = some r → r.depth = d) :
    ∀ (fuel : Nat) (parent : Result) (depth : Nat) (r : Result),
      r ∈ recursiveScanAux maxDepth scan extract fuel parent depth →
      depth ≤ r.depth ∧ r.depth ≤ maxDepth := by
  intro fuel
  induction fuel with
  | zero =>
    intro parent depth r h
    simp [recursiveScanAux] at h
  | succ n ih =>
    intro parent depth r h
    unfold recursiveScanAux at h
    by_cases hd : maxDepth < depth
    · rw [if_pos hd] at h
      simp at h
    · rw [if_neg hd] at h
      generalize extract parent = paths at h
      induction paths with
      | nil => simp at h
      | cons p ps ihl =>
        rw [List.foldr_cons] at h
        rcases hs : scan p depth with _ | r'
        · rw [hs] at h
          exact ihl h
        · rw [hs] at h
          rcases List.mem_cons.mp h with hr | hr
          · subst hr
            have hdep := hscan p depth r hs
            omega
          · rcases List.mem_append.mp hr with hr2 | hr2
            · by_cases hc : 200 ≤ r'.statusCode ∧ r'.statusCode < 400
              · rw [if_pos hc] at hr2
                have hrec := ih r' (depth + 1) r hr2
                omega
              · rw [if_neg hc] at hr2
                simp at hr2
            · exact ihl hr2

/-- Claim C3: `recursiveScan` is a no-op above `MaxDepth`; every result it
emits (the scanner stamping results with its depth argument) has
`depth ≤ Depth ≤ MaxDepth`; a worker enters recursion only when the
`Recursive` flag is set and the parent's status is 2xx/3xx, starting at
depth 1; and consequently every result a worker emits has
`Depth ≤ MaxDepth`. -/
theorem c3_recursion_depth_bounded (recursive : Bool) (maxDepth : Nat)
    (scan : String → Nat → Option Result) (extract : Result → List String)
    (hscan : ∀ p d r, scan p d = some r → r.depth = d) :
    (∀ parent depth, maxDepth < depth →
        recursiveScan maxDepth scan extract parent depth = []) ∧
    (∀ parent depth r, r ∈ recursiveScan maxDepth scan extract parent depth →
        depth ≤ r.depth ∧ r.depth ≤ maxDepth) ∧
    (∀ word r0, scan word 0 = some r0 →
        workerProcess recursive maxDepth scan extract word =
          r0 :: (if recursive ∧ 200 ≤ r0.statusCode ∧ r0.statusCode < 400 then
                   recursiveScan maxDepth scan extract r0 1
                 else [])) ∧
    (∀ word r, r ∈ workerProcess recursive maxDepth scan extract word →
        r.depth ≤ maxDepth) := by
  refine ⟨?_, ?_, ?_, ?_⟩
  · intro parent depth hlt
    unfold recursiveScan
    rcases hf : maxDepth + 2 - depth with _ | n
    · rfl
    · unfold recursiveScanAux
      rw [if_pos hlt]
  · intro parent depth r h
    exact mem_recursiveScanAux maxDepth scan extract hscan _ parent depth r h
  · intro word r0 h
    unfold workerProcess
    rw [h]
  · intro word r h
    unfold workerProcess at h
    rcases hs : scan word 0 with _ | r0
    · rw [hs] at h
      simp at h
    · rw [hs] at h
      rcases List.mem_cons.mp h with hr | hr
      · subst hr
        have := hscan word 0 r hs
        omega
      · by_cases hc : recursive ∧ 200 ≤ r0.statusCode ∧ r0.statusCode < 400
        · rw [if_pos hc] at hr
          exact (mem_recursiveScanAux maxDepth scan extract hscan _ r0 1 r hr).2
        · rw [if_neg hc] at hr
          simp at hr

/-- Witness for `c3_recursion_depth_bounded` at `MaxDepth = 2`: a call
above the bound does nothing, and a depth-1 result emitted by the recursion
stays within the bound. -/
theorem c3_recursion_depth_bounded_witness :
    recursiveScan 2 c3scan c3extract { statusCode := 200 } 5 = [] ∧
    (1 ≤ ({ statusCode := 200, depth := 1 } : Result).depth ∧
      ({ statusCode := 200, depth := 1 } : Result).depth ≤ 2) := by
  have h := c3_recursion_depth_bounded true 2 c3scan c3extract
    (fun p d r hr => by
      injection hr with h2
      rw [← h2])
  refine ⟨h.1 { statusCode := 200 } 5 (by omega), ?_⟩
  exact h.2.1 { statusCode := 200 } 1 { statusCode := 200, depth := 1 } (by decide)

/-- Claim C8: the token bucket refill deposits at most one token per tick
and silently drops the token when the bucket is full, so the bucket never
exceeds its capacity over any event sequence; a cancelled acquire makes
`ScanURL` return the cancellation error with zero requests issued; and with
rate limiting disabled the acquire is a no-op (the cancellation race does
not exist). -/
theorem c8_rate_limiter (cap : Nat) :
    (∀ n, n ≤ cap → refillStep cap n ≤ n + 1 ∧ refillStep cap n ≤ cap) ∧
    refillStep cap cap = cap ∧
    (∀ (n : Nat) (ops : List RLOp), n ≤ cap → rlRun cap n ops ≤ cap) ∧
    (∀ (f : FilterCfg) (verbose : Bool) (retryCount : Nat)
        (methods : List String) (env : ScanEnv) (targetURL path : String)
        (depth : Nat),
        ScanURL f verbose retryCount methods true true env targetURL path depth =
          (Except.error "context canceled", 0)) ∧
    (∀ (f : FilterCfg) (verbose : Bool) (retryCount : Nat)
        (methods : List String) (cancelFirst : Bool) (env : ScanEnv)
        (targetURL path : String) (depth : Nat),
        ScanURL f verbose retryCount methods false cancelFirst env targetURL path depth =
          ScanURL f verbose retryCount methods false false env targetURL path depth) := by
  have hrl : ∀ (ops : List RLOp) (n : Nat), n ≤ cap → rlRun cap n ops ≤ cap := by
    intro ops
    induction ops with
    | nil =>
      intro n h
      simpa [rlRun] using h
    | cons op ops ih =>
      intro n h
      cases op with
      | refill =>
        exact ih (refillStep cap n) (by unfold refillStep; split_ifs <;> omega)
      | acquire =>
        exact ih (n - 1) (by omega)
  refine ⟨?_, ?_, fun n ops h => hrl ops n h, fun _ _ _ _ _ _ _ _ => rfl,
    fun _ _ _ _ _ _ _ _ _ => rfl⟩
  · intro n h
    unfold refillStep
    split_ifs <;> omega
  · unfold refillStep
    simp

/-- Witness for `c8_rate_limiter` at capacity 2: after three refills and
one acquire from an empty bucket the level stays within capacity. -/
theorem c8_rate_limiter_witness :
    (0 : Nat) ≤ 2 ∧
    rlRun 2 0 [RLOp.refill, RLOp.refill, RLOp.refill, RLOp.acquire] ≤ 2 :=
  ⟨by decide,
   (c8_rate_limiter 2).2.2.1 0
     [RLOp.refill, RLOp.refill, RLOp.refill, RLOp.acquire] (by decide)⟩

/-- Claim C10: `ExtractPaths` returns exactly the `href` attribute values
that do not start with `http`, `mailto:`, `#` or `javascript:`, parse as a
URL with a non-empty path, each normalized by stripping one leading slash;
on the §8 example body only `admin/login` is extracted. -/
theorem c10_extract_paths :
    (∀ r : Result, ExtractPaths r = extractPathsSpec r) ∧
    ExtractPaths
        { body := "<a href=\"admin/login\">in</a> <a href=\"http://external.com/x\">out</a>" } =
      ["admin/login"] := by
  refine ⟨?_, by decide⟩
  intro r
  unfold ExtractPaths extractPathsSpec
  by_cases hb : r.body = ""
  · rw [if_pos hb, hb]
    rfl
  · rw [if_neg hb]
    generalize hrefMatches r.body.data = ms
    induction ms with
    | nil => rfl
    | cons p ps ih =>
      simp only [List.foldr_cons, List.filterMap_cons]
      cases h1 : strStarts p "http" <;> cases h2 : strStarts p "mailto:" <;>
        cases h3 : strStarts p "#" <;> cases h4 : strStarts p "javascript:" <;>
          simp only [h1, h2, h3, h4, Bool.not_false, Bool.not_true,
            Bool.true_and, Bool.false_and, Bool.and_false, Bool.and_true,
            Bool.and_self, Bool.true_or, Bool.false_or, Bool.or_true,
            Bool.or_false, Bool.or_self, if_true, if_false, ih] <;>
          (try rfl) <;>
          (rcases hu : urlParse p with _ | u
           · simp [ih]
           · by_cases hp : u.path = "" <;> simp [hu, hp, ih])

end Dirsearch
